import Mathlib

/-!
Shallow embedding of `generate-location-icons.py`, a batch generator of
placeholder PNG icons.  Pure data (styles, drawing commands, name
normalization) is modelled by Lean functions; the filesystem is modelled as
explicit state (association lists of file names to contents) threaded through
the category processor and the directory walker.  Console output is modelled
as a list of diagnostic message strings.
-/

namespace LocationIcons

/-! ## Configuration (lines 5-20 of the source) -/

/-- ICON_SIZE = (64, 64). -/
def ICON_SIZE : ℕ × ℕ := (64, 64)

/-- ICONS_DIR = "icons-pathfinding". -/
def ICONS_DIR : String := "icons-pathfinding"

/-- CATEGORY_STYLES: category name ↦ (hex color, shape, symbol code). -/
def CATEGORY_STYLES : List (String × String × String × String) :=
  [("enemies-arcs", "#ef5350", "diamond", "ARC"),
   ("extraction", "#26c6da", "arrow_up", "EXIT"),
   ("spawn", "#ffffff", "arrow_down", "DROP"),
   ("locked-rooms", "#fbc02d", "padlock", "LOCK"),
   ("objectives", "#ffeb3b", "star", "OBJ"),
   ("loot-containers", "#e0e0e0", "box", "LOOT"),
   ("supply-stations", "#bdbdbd", "radio", "SUP"),
   ("resources-plants", "#66bb6a", "leaf", "BIO"),
   ("other", "#9e9e9e", "circle", "???")]

/-! ## Colors -/

/-- Color values as passed to PIL: an RGB triple produced by `hex_to_rgb`, the
RGBA tuple used for the background fill, or a raw hex string (the unknown
category branch passes the string "#9e9e9e" directly). -/
inductive PyColor where
  | rgb (r g b : ℕ)
  | rgba (r g b a : ℕ)
  | hexStr (s : String)
deriving DecidableEq

/-- Value of one hexadecimal digit, the semantics of Python int(_, 16) on a
single character (only digits and a-f / A-F occur in CATEGORY_STYLES). -/
def hexVal (c : Char) : ℕ :=
  if '0' ≤ c ∧ c ≤ '9' then c.toNat - '0'.toNat
  else if 'a' ≤ c ∧ c ≤ 'f' then c.toNat - 'a'.toNat + 10
  else if 'A' ≤ c ∧ c ≤ 'F' then c.toNat - 'A'.toNat + 10
  else 0

/-- Value of a two-digit hexadecimal pair, Python int(s[i:i+2], 16). -/
def hexByte (c₁ c₂ : Char) : ℕ := 16 * hexVal c₁ + hexVal c₂

/-- hex_to_rgb (source lines 109-112): strip leading '#' characters
(str.lstrip) and read three two-digit hex bytes. -/
def hex_to_rgb (s : String) : ℕ × ℕ × ℕ :=
  let t := s.data.dropWhile (fun c => c = '#')
  (hexByte (t.getD 0 '0') (t.getD 1 '0'),
   hexByte (t.getD 2 '0') (t.getD 3 '0'),
   hexByte (t.getD 4 '0') (t.getD 5 '0'))

/-! ## The shape renderer `draw_icon` (source lines 22-107)

The renderer is modelled as the list of PIL drawing commands it issues, with
exact rational coordinates.  Saving the file is modelled by the caller, which
stores this command list as the content of the created file. -/

/-- One PIL drawing command with its arguments as issued by `draw_icon`. -/
inductive DrawCmd where
  | polygon (points : List (ℚ × ℚ)) (fill : PyColor) (outline : PyColor) (width : ℕ)
  | ellipse (box : List ℚ) (fill : PyColor) (outline : PyColor) (width : ℕ)
  | rectangle (box : List ℚ) (fill : PyColor) (outline : PyColor) (width : ℕ)
  | arc (box : List ℚ) (startAngle endAngle : ℕ) (color : PyColor) (width : ℕ)
  | line (seg : List ℚ) (color : PyColor) (width : ℕ)
  | text (pos : ℚ × ℚ) (s : String) (color : PyColor)
deriving DecidableEq

/-- Which font the try/except ladder of lines 87-94 ends up with: a truetype
arial, PIL's default font, or no font at all. -/
inductive FontEnv where
  | truetype
  | loadDefault
  | noFont
deriving DecidableEq

/-- Ambient environment of a run: which font is available and the metric
`textbbox` returned by PIL for the (truncated) label under that font. -/
structure Env where
  fontEnv : FontEnv
  bbox : String → ℚ × ℚ × ℚ × ℚ

/-- bg_color = (20, 20, 20, 230) (source line 32). -/
def bgColor : PyColor := .rgba 20 20 20 230

/-- Vertex list of the "star" branch (source lines 63-68).  The code computes
an `angle = i * 3.14159 / 5` that is never used; the x and y coordinates are
built from the same expression `c + r * 0.8 * (1 if i % 2 == 0 else 0.5) *
(1 if i < 5 else -1)` with c = cx = cy. -/
def starPoints : List (ℚ × ℚ) :=
  (List.range 10).map fun i =>
    let w : ℚ := 64
    let p : ℚ := 4
    let cx : ℚ := w / 2
    let cy : ℚ := w / 2
    let r : ℚ := if i % 2 = 0 then (w / 2 - p) else (w / 2 - p - 8)
    (cx + r * (0.8 : ℚ) * (if i % 2 = 0 then 1 else (0.5 : ℚ)) * (if i < 5 then 1 else -1),
     cy + r * (0.8 : ℚ) * (if i % 2 = 0 then 1 else (0.5 : ℚ)) * (if i < 5 then 1 else -1))

/-- draw_icon (source lines 22-107) as the list of drawing commands issued.
The `category` parameter is part of the Python signature but is never read in
the body.  The shape dispatch follows the if/elif chain literally; the text
label is the first 3 characters of `text`, centered using the font metrics
when a font is available and placed at the fixed offset (cx-12, cy-6)
otherwise. -/
def drawIcon (env : Env) (category : String) (color : PyColor) (shape : String)
    (text : String) : List DrawCmd :=
  let w : ℚ := 64
  let h : ℚ := 64
  let p : ℚ := 4
  let cx : ℚ := w / 2
  let cy : ℚ := h / 2
  let shapeCmds : List DrawCmd :=
    if shape = "diamond" then
      [.polygon [(cx, p), (w - p, cy), (cx, h - p), (p, cy)] bgColor color 3]
    else if shape = "circle" then
      [.ellipse [p, p, w - p, h - p] bgColor color 3]
    else if shape = "box" then
      [.rectangle [p + 4, p + 4, w - p - 4, h - p - 4] bgColor color 3]
    else if shape = "arrow_up" then
      [.polygon [(cx, p), (w - p, cy), (cx + 10, cy), (cx + 10, h - p),
                 (cx - 10, h - p), (cx - 10, cy), (p, cy)] bgColor color 3]
    else if shape = "arrow_down" then
      [.polygon [(cx, h - p), (w - p, cy), (cx + 10, cy), (cx + 10, p),
                 (cx - 10, p), (cx - 10, cy), (p, cy)] bgColor color 3]
    else if shape = "padlock" then
      [.rectangle [cx - 12, cy - 8, cx + 12, cy + 8] bgColor color 3,
       .arc [cx - 12, cy - 16, cx + 12, cy] 0 180 color 3]
    else if shape = "star" then
      (if starPoints.length ≥ 3 then [.polygon starPoints bgColor color 2] else [])
    else if shape = "radio" then
      [.rectangle [cx - 10, cy - 6, cx + 10, cy + 6] bgColor color 3,
       .line [cx, cy - 6, cx, cy - 12] color 2,
       .line [cx - 4, cy - 12, cx + 4, cy - 12] color 2]
    else if shape = "leaf" then
      [.ellipse [cx - 10, cy - 8, cx + 10, cy + 8] bgColor color 3,
       .line [cx, cy - 8, cx, cy + 8] color 2]
    else
      [.rectangle [p, p, w - p, h - p] bgColor color 3]
  let label := text.take 3
  let textCmds : List DrawCmd :=
    match env.fontEnv with
    | .noFont => [.text (cx - 12, cy - 6) label color]
    | _ =>
      let b := env.bbox label
      let textWidth : ℚ := b.2.2.1 - b.1
      let textHeight : ℚ := b.2.2.2 - b.2.1
      [.text (cx - textWidth / 2, cy - textHeight / 2) label color]
  shapeCmds ++ textCmds

/-! ## Manifest name normalization (source line 139)

Python `icon_name.replace('.png', '')` removes every non-overlapping
occurrence of ".png", scanning left to right. -/

/-- Left-to-right removal of every non-overlapping occurrence of the four
characters ".png", the semantics of Python str.replace('.png', ''). -/
def removePngAll : List Char → List Char
  | '.' :: 'p' :: 'n' :: 'g' :: rest => removePngAll rest
  | c :: rest => c :: removePngAll rest
  | [] => []

/-- icon_name.replace('.png', '') on strings. -/
def normalizeIconName (s : String) : String := ⟨removePngAll s.data⟩

/-- Destination file name of a manifest entry inside its category folder
(source line 142): normalized name plus ".png". -/
def destName (rawName : String) : String := normalizeIconName rawName ++ ".png"

/-! ## Filesystem model

The script only inspects: existence of the root directory, the list of its
children, whether a child is a directory, existence and lines of
icon-names.txt inside a category folder, and existence of destination files
inside a category folder; it only ever creates destination files.  A folder is
modelled by its name, the optional manifest, and an association list from file
name to content; the root by an existence flag and a child list. -/

/-- Content of a file: a pre-existing file of unknown content, or an icon
written by `draw_icon` (modelled as its drawing-command list). -/
inductive FileContent where
  | blob (tag : ℕ)
  | icon (cmds : List DrawCmd)
deriving DecidableEq

/-- Association-list lookup of a file by name, the model of
os.path.exists / reading inside one folder. -/
def lookupFile : List (String × FileContent) → String → Option FileContent
  | [], _ => none
  | (k, v) :: rest, nm => if k = nm then some v else lookupFile rest nm

/-- Whether a file with the given name exists in the folder (os.path.exists on
a path inside the folder). -/
def fileExists (files : List (String × FileContent)) (nm : String) : Bool :=
  (lookupFile files nm).isSome

/-- One category folder: its base name, the lines of icon-names.txt when that
file exists, and the files present in the folder. -/
structure FolderState where
  name : String
  manifestLines : Option (List String)
  files : List (String × FileContent)
deriving DecidableEq

/-- One child of the root directory: a category subdirectory or a plain file
(the walker skips non-directories). -/
inductive RootEntry where
  | dirEntry (folder : FolderState)
  | fileEntry (fname : String) (content : FileContent)
deriving DecidableEq

/-- The root icons directory: whether it exists, and its children. -/
structure RootFS where
  rootExists : Bool
  entries : List RootEntry
deriving DecidableEq

/-- Path of a category folder, os.path.join(ICONS_DIR, item) with "/" as
separator. -/
def categoryPath (nm : String) : String := ICONS_DIR ++ "/" ++ nm

/-! ## The category processor `generate_icons_for_category`
(source lines 114-154) -/

/-- Resolved visual style of a category plus the warning the unknown-category
branch prints (source lines 116-123).  Known categories get their hex color
converted through hex_to_rgb; the unknown branch passes the raw string
"#9e9e9e". -/
structure Style where
  color : PyColor
  shape : String
  label : String
  warnings : List String
deriving DecidableEq

/-- Style resolution of lines 118-123: table hit converts the hex color,
miss logs a warning and uses the default ("#9e9e9e", "circle", "???"). -/
def resolveStyle (categoryName : String) : Style :=
  match CATEGORY_STYLES.lookup categoryName with
  | none =>
    { color := .hexStr "#9e9e9e", shape := "circle", label := "???",
      warnings := ["⚠️  Unknown category: " ++ categoryName ++ ", using default style"] }
  | some (colorHex, shape, text) =>
    let c := hex_to_rgb colorHex
    { color := .rgb c.1 c.2.1 c.2.2, shape := shape, label := text, warnings := [] }

/-- Whitespace characters removed by Python str.strip() with no argument. -/
def isPySpace (c : Char) : Bool :=
  c = ' ' || c = '\t' || c = '\n' || c = '\x0d' || c = '\x0b' || c = '\x0c'

/-- Python line.strip(): remove leading and trailing whitespace. -/
def pyStrip (s : String) : String :=
  ⟨(((s.data.dropWhile isPySpace).reverse).dropWhile isPySpace).reverse⟩

/-- line.strip() filtering of the manifest (source line 133): strip each line,
keep the non-blank results. -/
def manifestNames (lines : List String) : List String :=
  (lines.map pyStrip).filter (fun t => t ≠ "")

/-- State threaded through the per-name loop of lines 135-153: the folder's
files, generated_count, and the console diagnostics so far. -/
structure ProcState where
  files : List (String × FileContent)
  count : ℕ
  log : List String
deriving DecidableEq

/-- Failure oracle: `fails path = some err` means draw_icon raises an
exception with detail `err` when asked to render and save at `path`;
`none` means rendering and saving succeed. -/
def FailOracle := String → Option String

/-- Oracle under which every render and save succeeds. -/
def noFail : FailOracle := fun _ => none

/-- The per-name loop of lines 137-153: normalize the name, skip when the
destination exists, otherwise attempt draw_icon — an exception is caught and
logged without incrementing generated_count, success stores the rendered icon
and increments it. -/
def processIcons (env : Env) (fails : FailOracle) (categoryName : String)
    (color : PyColor) (shape : String) (label : String) :
    List String → ProcState → ProcState
  | [], st => st
  | rawName :: rest, st =>
    let iconName := normalizeIconName rawName
    let outputPath := iconName ++ ".png"
    if fileExists st.files outputPath then
      processIcons env fails categoryName color shape label rest st
    else
      match fails outputPath with
      | some err =>
        processIcons env fails categoryName color shape label rest
          { files := st.files, count := st.count,
            log := st.log ++ ["❌ Error generating " ++ iconName ++ ": " ++ err] }
      | none =>
        processIcons env fails categoryName color shape label rest
          { files := (outputPath, .icon (drawIcon env categoryName color shape label)) :: st.files,
            count := st.count + 1,
            log := st.log }

/-- Result of generate_icons_for_category: the updated folder, the returned
generated_count, and the diagnostics printed. -/
structure CategoryResult where
  folder : FolderState
  count : ℕ
  log : List String
deriving DecidableEq

/-- generate_icons_for_category (source lines 114-154): resolve the style from
the folder's base name, return 0 with a warning when icon-names.txt is absent,
otherwise run the per-name loop over the stripped non-blank manifest lines. -/
def generateIconsForCategory (env : Env) (fails : FailOracle)
    (folder : FolderState) : CategoryResult :=
  let style := resolveStyle folder.name
  match folder.manifestLines with
  | none =>
    { folder := folder, count := 0,
      log := style.warnings ++
        ["⚠️  No icon-names.txt found in " ++ categoryPath folder.name] }
  | some lines =>
    let names := manifestNames lines
    let st := processIcons env fails folder.name style.color style.shape style.label
      names { files := folder.files, count := 0, log := style.warnings }
    { folder := { folder with files := st.files }, count := st.count, log := st.log }

/-! ## The directory walker `main` (source lines 156-186) -/

/-- How a run ended: early return because the root directory is missing, or a
completed pass over all category folders. -/
inductive Outcome where
  | missingRoot
  | completed
deriving DecidableEq

/-- Result of one invocation of main: the filesystem afterwards, how the run
ended, the total_generated and categories_processed counters, and the
diagnostic messages. -/
structure RunResult where
  fs : RootFS
  outcome : Outcome
  totalGenerated : ℕ
  categoriesProcessed : ℕ
  log : List String
deriving DecidableEq

/-- The loop of lines 170-181: each child that is a directory is processed as
a category folder, its count added to total_generated and
categories_processed incremented; non-directories are skipped. -/
def processEntries (env : Env) (fails : FailOracle) :
    List RootEntry → List RootEntry × ℕ × ℕ × List String
  | [] => ([], 0, 0, [])
  | .fileEntry n c :: rest =>
    let r := processEntries env fails rest
    (.fileEntry n c :: r.1, r.2.1, r.2.2.1, r.2.2.2)
  | .dirEntry folder :: rest =>
    let g := generateIconsForCategory env fails folder
    let r := processEntries env fails rest
    (.dirEntry g.folder :: r.1, g.count + r.2.1, 1 + r.2.2.1, g.log ++ r.2.2.2)

/-- main (source lines 156-186): early return with diagnostics when the root
directory is missing, otherwise walk the children and accumulate the
counters.  Decorative banner and summary prints are not part of the modelled
log; the two missing-directory diagnostics are. -/
def run (env : Env) (fails : FailOracle) (fs : RootFS) : RunResult :=
  if fs.rootExists then
    let r := processEntries env fails fs.entries
    { fs := { fs with entries := r.1 }, outcome := .completed,
      totalGenerated := r.2.1, categoriesProcessed := r.2.2.1, log := r.2.2.2 }
  else
    { fs := fs, outcome := .missingRoot, totalGenerated := 0,
      categoriesProcessed := 0,
      log := ["❌ Icons directory not found: " ++ ICONS_DIR,
              "   Please run reorganize-icons.cjs first to create the folder structure"] }

/-- Number of directory children of the root, the number of categories a
completed run visits. -/
def dirCount (entries : List RootEntry) : ℕ :=
  entries.countP fun e => match e with | .dirEntry _ => true | .fileEntry _ _ => false

/-- Whether a root child still carries a given file with given content: for a
plain file, being exactly that file; for a category folder, containing that
file with that content. -/
def entryHasFile : RootEntry → String → FileContent → Bool
  | .fileEntry fname content, n, c => decide (fname = n) && decide (content = c)
  | .dirEntry folder, n, c => decide (lookupFile folder.files n = some c)

/-- Concrete environment used by witnesses: no font available, trivial
metrics. -/
def env0 : Env := ⟨.noFont, fun _ => (0, 0, 0, 0)⟩
/-! ## Basic lemmas about the per-name loop -/

section ProcessLemmas

variable (env : Env) (fails : FailOracle) (categoryName : String)
variable (color : PyColor) (shape : String) (label : String)

theorem processIcons_nil (st : ProcState) :
    processIcons env fails categoryName color shape label [] st = st := rfl

theorem processIcons_cons (rawName : String) (rest : List String) (st : ProcState) :
    processIcons env fails categoryName color shape label (rawName :: rest) st =
      (if fileExists st.files (destName rawName) then
        processIcons env fails categoryName color shape label rest st
      else
        match fails (destName rawName) with
        | some err =>
          processIcons env fails categoryName color shape label rest
            ⟨st.files, st.count,
              st.log ++ ["❌ Error generating " ++ normalizeIconName rawName ++ ": " ++ err]⟩
        | none =>
          processIcons env fails categoryName color shape label rest
            ⟨(destName rawName,
                .icon (drawIcon env categoryName color shape label)) :: st.files,
              st.count + 1, st.log⟩) := rfl

/-- Existing entries of the file map are never overwritten nor removed by the
per-name loop: a lookup that succeeded before still returns the same content
afterwards. -/
theorem lookupFile_processIcons (names : List String) (st : ProcState)
    (n : String) (c : FileContent)
    (h : lookupFile st.files n = some c) :
    lookupFile (processIcons env fails categoryName color shape label names st).files n
      = some c := by
  induction names generalizing st with
  | nil => simpa [processIcons_nil] using h
  | cons rawName rest ih =>
    rw [processIcons_cons]
    by_cases hex : fileExists st.files (destName rawName) = true
    · rw [if_pos hex]; exact ih st h
    · rw [if_neg hex]
      cases hf : fails (destName rawName) with
      | some err => exact ih _ h
      | none =>
        apply ih
        have hne : destName rawName ≠ n := by
          intro hEq
          rw [hEq] at hex
          simp [fileExists, h] at hex
        simpa [lookupFile, hne] using h

/-- The per-name loop only appends to the diagnostics log. -/
theorem processIcons_log_extends (names : List String) (st : ProcState) :
    ∃ t, (processIcons env fails categoryName color shape label names st).log
      = st.log ++ t := by
  induction names generalizing st with
  | nil => exact ⟨[], by simp [processIcons_nil]⟩
  | cons rawName rest ih =>
    rw [processIcons_cons]
    by_cases hex : fileExists st.files (destName rawName) = true
    · rw [if_pos hex]; exact ih st
    · rw [if_neg hex]
      cases hf : fails (destName rawName) with
      | some err =>
        obtain ⟨t, ht⟩ := ih ⟨st.files, st.count,
          st.log ++ ["❌ Error generating " ++ normalizeIconName rawName ++ ": " ++ err]⟩
        exact ⟨("❌ Error generating " ++ normalizeIconName rawName ++ ": " ++ err) :: t,
          by simpa using ht⟩
      | none =>
        obtain ⟨t, ht⟩ := ih ⟨(destName rawName,
          .icon (drawIcon env categoryName color shape label)) :: st.files,
          st.count + 1, st.log⟩
        exact ⟨t, ht⟩

/-- After the loop, the destination of every processed name either exists or
is a destination whose rendering fails. -/
theorem processIcons_covers (names : List String) (st : ProcState)
    (n : String) (hn : n ∈ names) :
    fileExists (processIcons env fails categoryName color shape label names st).files
        (destName n) = true
      ∨ (fails (destName n)).isSome = true := by
  induction names generalizing st with
  | nil => cases hn
  | cons rawName rest ih =>
    rw [processIcons_cons]
    rcases List.mem_cons.mp hn with rfl | hmem
    · by_cases hex : fileExists st.files (destName n) = true
      · left
        rw [if_pos hex]
        simp only [fileExists] at hex ⊢
        cases hc : lookupFile st.files (destName n) with
        | none => rw [hc] at hex; simp at hex
        | some c =>
          rw [lookupFile_processIcons env fails categoryName color shape label rest st _ _ hc]
          rfl
      · rw [if_neg hex]
        cases hf : fails (destName n) with
        | some err => right; simp [hf]
        | none =>
          left
          have hsome : lookupFile ((destName n,
              FileContent.icon (drawIcon env categoryName color shape label)) :: st.files)
              (destName n) = some (.icon (drawIcon env categoryName color shape label)) := by
            simp [lookupFile]
          have hmono := lookupFile_processIcons env fails categoryName color shape label rest
            ⟨(destName n, FileContent.icon (drawIcon env categoryName color shape label)) :: st.files,
              st.count + 1, st.log⟩ (destName n) _ hsome
          show fileExists (processIcons env fails categoryName color shape label rest
            ⟨(destName n, FileContent.icon (drawIcon env categoryName color shape label)) :: st.files,
              st.count + 1, st.log⟩).files (destName n) = true
          simp [fileExists, hmono]
    · by_cases hex : fileExists st.files (destName rawName) = true
      · rw [if_pos hex]; exact ih _ hmem
      · rw [if_neg hex]
        cases hf : fails (destName rawName) with
        | some err => exact ih _ hmem
        | none => exact ih _ hmem

/-- When every name in the list is already covered (destination present, or a
destination whose rendering fails), the loop changes no file and generates
nothing. -/
theorem processIcons_noop (names : List String) (st : ProcState)
    (h : ∀ n ∈ names, fileExists st.files (destName n) = true
      ∨ (fails (destName n)).isSome = true) :
    (processIcons env fails categoryName color shape label names st).files = st.files
      ∧ (processIcons env fails categoryName color shape label names st).count = st.count := by
  induction names generalizing st with
  | nil => simp [processIcons_nil]
  | cons rawName rest ih =>
    rw [processIcons_cons]
    by_cases hex : fileExists st.files (destName rawName) = true
    · rw [if_pos hex]
      exact ih st fun n hn => h n (List.mem_cons_of_mem _ hn)
    · rw [if_neg hex]
      rcases h rawName (List.mem_cons_self rawName rest) with hex2 | hf
      · exact absurd hex2 hex
      · cases hfe : fails (destName rawName) with
        | none => rw [hfe] at hf; simp at hf
        | some err =>
          have := ih (⟨st.files, st.count,
              st.log ++ ["❌ Error generating " ++ normalizeIconName rawName ++ ": " ++ err]⟩ : ProcState)
            (fun n hn => h n (List.mem_cons_of_mem _ hn))
          simpa using this

/-- A name whose destination is absent and renders successfully ends up, after
the loop, stored as the icon drawn from the category's style (no matter where
in the list it sits, and even when another entry resolves to the same
destination first — the drawn content only depends on the style). -/
theorem processIcons_creates (names : List String) (st : ProcState) (nm : String)
    (hn : nm ∈ names)
    (habs : lookupFile st.files (destName nm) = none)
    (hok : fails (destName nm) = none) :
    lookupFile (processIcons env fails categoryName color shape label names st).files
        (destName nm)
      = some (.icon (drawIcon env categoryName color shape label)) := by
  induction names generalizing st with
  | nil => cases hn
  | cons rawName rest ih =>
    rw [processIcons_cons]
    by_cases hd : destName rawName = destName nm
    · have hex : ¬ fileExists st.files (destName rawName) = true := by
        simp [fileExists, hd, habs]
      rw [if_neg hex, hd, hok]
      exact lookupFile_processIcons env fails categoryName color shape label rest
        ⟨(destName nm, .icon (drawIcon env categoryName color shape label)) :: st.files,
          st.count + 1, st.log⟩ (destName nm) _ (by simp [lookupFile])
    · have hmem : nm ∈ rest := by
        rcases List.mem_cons.mp hn with rfl | hmem
        · exact absurd rfl hd
        · exact hmem
      by_cases hex : fileExists st.files (destName rawName) = true
      · rw [if_pos hex]; exact ih st hmem habs
      · rw [if_neg hex]
        cases hf : fails (destName rawName) with
        | some err => exact ih _ hmem habs
        | none =>
          exact ih _ hmem (by simpa [lookupFile, hd] using habs)

/-- When every destination is fresh and pairwise distinct and rendering never
fails, the loop creates one file per name and counts each of them. -/
theorem processIcons_fresh (names : List String) (st : ProcState)
    (hnd : (names.map destName).Nodup)
    (habs : ∀ nm ∈ names, lookupFile st.files (destName nm) = none) :
    (processIcons env noFail categoryName color shape label names st).count
        = st.count + names.length
      ∧ (processIcons env noFail categoryName color shape label names st).files.length
        = st.files.length + names.length := by
  induction names generalizing st with
  | nil => simp [processIcons_nil]
  | cons rawName rest ih =>
    rw [processIcons_cons]
    have hex : ¬ fileExists st.files (destName rawName) = true := by
      simp [fileExists, habs rawName (List.mem_cons_self _ _)]
    rw [if_neg hex]
    have hnd' : (rest.map destName).Nodup := (List.nodup_cons.mp (by simpa using hnd)).2
    have hhead : destName rawName ∉ rest.map destName :=
      (List.nodup_cons.mp (by simpa using hnd)).1
    have habs' : ∀ nm ∈ rest,
        lookupFile ((destName rawName,
          FileContent.icon (drawIcon env categoryName color shape label)) :: st.files)
          (destName nm) = none := by
      intro nm hm
      have hne : destName rawName ≠ destName nm := by
        intro hEq
        exact hhead (hEq ▸ List.mem_map_of_mem destName hm)
      simp [lookupFile, hne, habs nm (List.mem_cons_of_mem _ hm)]
    have := ih (⟨(destName rawName,
        FileContent.icon (drawIcon env categoryName color shape label)) :: st.files,
        st.count + 1, st.log⟩ : ProcState) hnd' habs'
    show (processIcons env noFail categoryName color shape label rest
        ⟨(destName rawName,
          FileContent.icon (drawIcon env categoryName color shape label)) :: st.files,
          st.count + 1, st.log⟩).count = st.count + (rawName :: rest).length
      ∧ (processIcons env noFail categoryName color shape label rest
        ⟨(destName rawName,
          FileContent.icon (drawIcon env categoryName color shape label)) :: st.files,
          st.count + 1, st.log⟩).files.length = st.files.length + (rawName :: rest).length
    obtain ⟨h1, h2⟩ := this
    constructor
    · rw [h1]; simp; omega
    · rw [h2]; simp; omega

end ProcessLemmas

/-! ## Lemmas about the category processor -/

section CategoryLemmas

variable (env : Env) (fails : FailOracle)

theorem generateIconsForCategory_noManifest (folder : FolderState)
    (h : folder.manifestLines = none) :
    generateIconsForCategory env fails folder =
      ⟨folder, 0, (resolveStyle folder.name).warnings ++
        ["⚠️  No icon-names.txt found in " ++ categoryPath folder.name]⟩ := by
  simp [generateIconsForCategory, h]

theorem generateIconsForCategory_some (folder : FolderState) (lines : List String)
    (h : folder.manifestLines = some lines) :
    generateIconsForCategory env fails folder =
      ⟨{ folder with files := (processIcons env fails folder.name
          (resolveStyle folder.name).color (resolveStyle folder.name).shape
          (resolveStyle folder.name).label (manifestNames lines)
          ⟨folder.files, 0, (resolveStyle folder.name).warnings⟩).files },
        (processIcons env fails folder.name
          (resolveStyle folder.name).color (resolveStyle folder.name).shape
          (resolveStyle folder.name).label (manifestNames lines)
          ⟨folder.files, 0, (resolveStyle folder.name).warnings⟩).count,
        (processIcons env fails folder.name
          (resolveStyle folder.name).color (resolveStyle folder.name).shape
          (resolveStyle folder.name).label (manifestNames lines)
          ⟨folder.files, 0, (resolveStyle folder.name).warnings⟩).log⟩ := by
  simp [generateIconsForCategory, h]

/-- The category processor never touches a folder's name or manifest. -/
theorem generateIconsForCategory_frame (folder : FolderState) :
    (generateIconsForCategory env fails folder).folder.name = folder.name
      ∧ (generateIconsForCategory env fails folder).folder.manifestLines
        = folder.manifestLines := by
  cases h : folder.manifestLines with
  | none => rw [generateIconsForCategory_noManifest env fails folder h]; exact ⟨rfl, h⟩
  | some lines => rw [generateIconsForCategory_some env fails folder lines h]; exact ⟨rfl, h⟩

/-- Pre-existing files of a category folder are preserved by the processor,
with unchanged content. -/
theorem generateIconsForCategory_preserves (folder : FolderState)
    (n : String) (c : FileContent)
    (h : lookupFile folder.files n = some c) :
    lookupFile (generateIconsForCategory env fails folder).folder.files n = some c := by
  cases hm : folder.manifestLines with
  | none => rw [generateIconsForCategory_noManifest env fails folder hm]; exact h
  | some lines =>
    rw [generateIconsForCategory_some env fails folder lines hm]
    exact lookupFile_processIcons env fails folder.name _ _ _ (manifestNames lines)
      ⟨folder.files, 0, (resolveStyle folder.name).warnings⟩ n c h

/-- Running the category processor on an already-processed folder changes
nothing and generates zero icons. -/
theorem generateIconsForCategory_idem (folder : FolderState) :
    (generateIconsForCategory env fails
        (generateIconsForCategory env fails folder).folder).folder
      = (generateIconsForCategory env fails folder).folder
    ∧ (generateIconsForCategory env fails
        (generateIconsForCategory env fails folder).folder).count = 0 := by
  cases hm : folder.manifestLines with
  | none =>
    rw [generateIconsForCategory_noManifest env fails folder hm]
    rw [generateIconsForCategory_noManifest env fails folder hm]
    exact ⟨rfl, rfl⟩
  | some lines =>
    rw [generateIconsForCategory_some env fails folder lines hm]
    set style := resolveStyle folder.name with hstyle
    set st₁ := processIcons env fails folder.name style.color style.shape style.label
      (manifestNames lines) ⟨folder.files, 0, style.warnings⟩ with hst₁
    have hm₂ : ({ folder with files := st₁.files } : FolderState).manifestLines
        = some lines := hm
    rw [generateIconsForCategory_some env fails { folder with files := st₁.files } lines hm₂]
    have hcov : ∀ nm ∈ manifestNames lines,
        fileExists st₁.files (destName nm) = true
          ∨ (fails (destName nm)).isSome = true := by
      intro nm hmem
      exact processIcons_covers env fails folder.name style.color style.shape style.label
        (manifestNames lines) ⟨folder.files, 0, style.warnings⟩ nm hmem
    have hnoop := processIcons_noop env fails folder.name style.color style.shape style.label
      (manifestNames lines) ⟨st₁.files, 0, style.warnings⟩ (fun n hn => hcov n hn)
    constructor
    · simp only [hnoop.1]
    · simp only [hnoop.2]

end CategoryLemmas

/-! ## Lemmas about name normalization -/

/-- Unfolding of `removePngAll` at a head that does not start a ".png"
occurrence. -/
theorem removePngAll_cons_nomatch (c : Char) (l : List Char)
    (h : ∀ r', c = '.' → l = 'p' :: 'n' :: 'g' :: r' → False) :
    removePngAll (c :: l) = c :: removePngAll l := by
  rw [removePngAll.eq_def]
  split
  · next rest heq =>
    injection heq with h1 h2
    exact (h rest h1 h2).elim
  · next c2 rest heq =>
    injection heq with h1 h2
    subst h1; subst h2; rfl
  · next heq => exact absurd heq (by simp)

/-- Appending ".png" to a character list does not change the result of
removing all ".png" occurrences: the appended suffix is always removed, and no
occurrence can straddle the boundary (no proper suffix of ".png" is a proper
head of it). -/
theorem removePngAll_append : ∀ l : List Char,
    removePngAll (l ++ ['.', 'p', 'n', 'g']) = removePngAll l := by
  intro l
  induction l using removePngAll.induct with
  | case1 rest ih =>
    simpa [removePngAll] using ih
  | case2 c rest h ih =>
    have h2 : ∀ (r' : List Char), c = '.' →
        rest ++ ['.', 'p', 'n', 'g'] = 'p' :: 'n' :: 'g' :: r' → False := by
      intro r' hc heq
      match rest, heq with
      | [], heq => simp at heq
      | [a], heq => simp at heq
      | [a, b], heq => simp at heq
      | a :: b :: d :: t, heq =>
        simp only [List.cons_append, List.cons.injEq] at heq
        exact h t hc (by rw [heq.1, heq.2.1, heq.2.2.1])
    have lhs : removePngAll (c :: rest ++ ['.', 'p', 'n', 'g'])
        = c :: removePngAll (rest ++ ['.', 'p', 'n', 'g']) :=
      removePngAll_cons_nomatch c (rest ++ ['.', 'p', 'n', 'g']) h2
    have rhs : removePngAll (c :: rest) = c :: removePngAll rest :=
      removePngAll_cons_nomatch c rest fun r' hc hr => h r' hc hr
    rw [List.cons_append] at lhs ⊢
    rw [lhs, rhs, ih]
  | case3 => rfl

/-- A manifest entry written with the ".png" suffix resolves to the same
destination file as the entry without it. -/
theorem destName_append_png (s : String) : destName (s ++ ".png") = destName s := by
  have hdata : (s ++ ".png").data = s.data ++ ['.', 'p', 'n', 'g'] := by
    rw [String.data_append]
  simp only [destName, normalizeIconName, hdata, removePngAll_append]

/-! ## Lemmas about the directory walker -/

section RunLemmas

variable (env : Env) (fails : FailOracle)

theorem processEntries_nil : processEntries env fails [] = ([], 0, 0, []) := rfl

theorem processEntries_fileCons (n : String) (c : FileContent) (rest : List RootEntry) :
    processEntries env fails (.fileEntry n c :: rest) =
      (.fileEntry n c :: (processEntries env fails rest).1,
        (processEntries env fails rest).2.1,
        (processEntries env fails rest).2.2.1,
        (processEntries env fails rest).2.2.2) := rfl

theorem processEntries_dirCons (folder : FolderState) (rest : List RootEntry) :
    processEntries env fails (.dirEntry folder :: rest) =
      (.dirEntry (generateIconsForCategory env fails folder).folder
          :: (processEntries env fails rest).1,
        (generateIconsForCategory env fails folder).count
          + (processEntries env fails rest).2.1,
        1 + (processEntries env fails rest).2.2.1,
        (generateIconsForCategory env fails folder).log
          ++ (processEntries env fails rest).2.2.2) := rfl

/-- The walker visits exactly the directory children, whatever happens inside
each of them. -/
theorem processEntries_dirCount (entries : List RootEntry) :
    (processEntries env fails entries).2.2.1 = dirCount entries := by
  induction entries with
  | nil => rfl
  | cons e rest ih =>
    cases e with
    | fileEntry n c => rw [processEntries_fileCons]; simpa [dirCount] using ih
    | dirEntry folder =>
      rw [processEntries_dirCons]
      simp [dirCount, List.countP_cons] at ih ⊢
      omega

/-- Positionwise preservation of pre-existing files under one pass of the
walker. -/
theorem processEntries_preserves (entries : List RootEntry) (i : ℕ)
    (e : RootEntry) (n : String) (c : FileContent)
    (hi : entries[i]? = some e)
    (hf : entryHasFile e n c = true) :
    ∃ e', (processEntries env fails entries).1[i]? = some e'
      ∧ entryHasFile e' n c = true := by
  induction entries generalizing i with
  | nil => simp at hi
  | cons head rest ih =>
    cases i with
    | zero =>
      simp only [List.getElem?_cons_zero, Option.some.injEq] at hi
      subst hi
      cases head with
      | fileEntry fn fc =>
        exact ⟨.fileEntry fn fc, by rw [processEntries_fileCons]; simp, hf⟩
      | dirEntry folder =>
        refine ⟨.dirEntry (generateIconsForCategory env fails folder).folder,
          by rw [processEntries_dirCons]; simp, ?_⟩
        simp only [entryHasFile, decide_eq_true_eq] at hf ⊢
        exact generateIconsForCategory_preserves env fails folder n c hf
    | succ j =>
      simp only [List.getElem?_cons_succ] at hi
      obtain ⟨e', he', hpres⟩ := ih j hi
      cases head with
      | fileEntry fn fc =>
        exact ⟨e', by rw [processEntries_fileCons]; simpa using he', hpres⟩
      | dirEntry folder =>
        exact ⟨e', by rw [processEntries_dirCons]; simpa using he', hpres⟩

/-- A second pass of the walker over already-processed children changes
nothing and generates zero icons in total. -/
theorem processEntries_idem (entries : List RootEntry) :
    (processEntries env fails (processEntries env fails entries).1).1
        = (processEntries env fails entries).1
      ∧ (processEntries env fails (processEntries env fails entries).1).2.1 = 0 := by
  induction entries with
  | nil => exact ⟨rfl, rfl⟩
  | cons head rest ih =>
    cases head with
    | fileEntry fn fc =>
      rw [processEntries_fileCons, processEntries_fileCons]
      exact ⟨by rw [ih.1], ih.2⟩
    | dirEntry folder =>
      rw [processEntries_dirCons, processEntries_dirCons]
      obtain ⟨hfolder, hcount⟩ := generateIconsForCategory_idem env fails folder
      constructor
      · rw [hfolder, ih.1]
      · rw [hcount, ih.2]

theorem run_rootMissing (fs : RootFS) (h : fs.rootExists = false) :
    run env fails fs = ⟨fs, .missingRoot, 0, 0,
      ["❌ Icons directory not found: " ++ ICONS_DIR,
       "   Please run reorganize-icons.cjs first to create the folder structure"]⟩ := by
  simp [run, h]

theorem run_rootExists (fs : RootFS) (h : fs.rootExists = true) :
    run env fails fs = ⟨{ fs with entries := (processEntries env fails fs.entries).1 },
      .completed, (processEntries env fails fs.entries).2.1,
      (processEntries env fails fs.entries).2.2.1,
      (processEntries env fails fs.entries).2.2.2⟩ := by
  simp [run, h]

end RunLemmas

/-! ## The claims -/

/-- C1: idempotence of the full run — for every folder structure (with an
existing root), after one complete run of the generator a second run over the
resulting, unchanged folder structure creates no files (the filesystem is
exactly the one the first run left) and reports exactly 0 new icons
generated. -/
theorem c1_second_run_generates_nothing (env : Env) (fs : RootFS)
    (h : fs.rootExists = true) :
    (run env noFail (run env noFail fs).fs).fs = (run env noFail fs).fs
      ∧ (run env noFail (run env noFail fs).fs).totalGenerated = 0 := by
  rw [run_rootExists env noFail fs h]
  have h2 : ({ fs with entries := (processEntries env noFail fs.entries).1 }
      : RootFS).rootExists = true := h
  rw [run_rootExists env noFail _ h2]
  obtain ⟨h1, h0⟩ := processEntries_idem env noFail fs.entries
  constructor
  · show ({ { fs with entries := (processEntries env noFail fs.entries).1 } with
      entries := (processEntries env noFail (processEntries env noFail fs.entries).1).1 }
        : RootFS)
      = { fs with entries := (processEntries env noFail fs.entries).1 }
    rw [h1]
  · exact h0

/-- Witness for C1 at a concrete structure: a root with one category folder
holding a two-line manifest. -/
theorem c1_witness :
    (⟨true, [.dirEntry ⟨"objectives", some ["alpha", "beta.png"], []⟩]⟩
        : RootFS).rootExists = true
      ∧ ((run env0 noFail (run env0 noFail
            ⟨true, [.dirEntry ⟨"objectives", some ["alpha", "beta.png"], []⟩]⟩).fs).fs
          = (run env0 noFail
            ⟨true, [.dirEntry ⟨"objectives", some ["alpha", "beta.png"], []⟩]⟩).fs
        ∧ (run env0 noFail (run env0 noFail
            ⟨true, [.dirEntry ⟨"objectives", some ["alpha", "beta.png"], []⟩]⟩).fs).totalGenerated
          = 0) :=
  ⟨rfl, c1_second_run_generates_nothing env0
    ⟨true, [.dirEntry ⟨"objectives", some ["alpha", "beta.png"], []⟩]⟩ rfl⟩

/-- C2: existing-file preservation — every file present before a run (a plain
child of the root, or a file inside a category folder) is still present with
identical content afterwards, for every environment and every failure
pattern; failures can only prevent creation of new files. -/
theorem c2_existing_files_preserved (env : Env) (fails : FailOracle) (fs : RootFS)
    (i : ℕ) (e : RootEntry) (n : String) (c : FileContent)
    (hi : fs.entries[i]? = some e) (hf : entryHasFile e n c = true) :
    ∃ e', (run env fails fs).fs.entries[i]? = some e'
      ∧ entryHasFile e' n c = true := by
  cases hr : fs.rootExists with
  | true =>
    rw [run_rootExists env fails fs hr]
    exact processEntries_preserves env fails fs.entries i e n c hi hf
  | false =>
    rw [run_rootMissing env fails fs hr]
    exact ⟨e, hi, hf⟩

/-- Witness for C2: a pre-existing file inside a category folder whose
manifest also lists a name, under an oracle that fails on everything. -/
theorem c2_witness :
    ((⟨true, [.dirEntry ⟨"spawn", some ["x"], [("keep.png", .blob 7)]⟩]⟩ : RootFS).entries[0]?
        = some (.dirEntry ⟨"spawn", some ["x"], [("keep.png", .blob 7)]⟩)
      ∧ entryHasFile (.dirEntry ⟨"spawn", some ["x"], [("keep.png", .blob 7)]⟩)
          "keep.png" (.blob 7) = true)
      ∧ ∃ e', (run env0 (fun _ => some "boom")
          ⟨true, [.dirEntry ⟨"spawn", some ["x"], [("keep.png", .blob 7)]⟩]⟩).fs.entries[0]?
            = some e'
        ∧ entryHasFile e' "keep.png" (.blob 7) = true :=
  ⟨⟨by decide, by decide⟩,
    c2_existing_files_preserved env0 (fun _ => some "boom")
      ⟨true, [.dirEntry ⟨"spawn", some ["x"], [("keep.png", .blob 7)]⟩]⟩ 0
      (.dirEntry ⟨"spawn", some ["x"], [("keep.png", .blob 7)]⟩) "keep.png" (.blob 7)
      (by decide) (by decide)⟩

/-- C7: missing root directory — when the root icons directory does not
exist, the entry point leaves the filesystem untouched, processes no
category, generates nothing, ends in the missing-root outcome (a graceful
early return, not an exception), and its diagnostics include the actionable
hint naming the prerequisite folder-structure step. -/
theorem c7_missing_root_reports_and_returns (env : Env) (fails : FailOracle)
    (fs : RootFS) (h : fs.rootExists = false) :
    (run env fails fs).fs = fs
      ∧ (run env fails fs).outcome = .missingRoot
      ∧ (run env fails fs).categoriesProcessed = 0
      ∧ (run env fails fs).totalGenerated = 0
      ∧ (run env fails fs).log
        = ["❌ Icons directory not found: " ++ ICONS_DIR,
           "   Please run reorganize-icons.cjs first to create the folder structure"] := by
  rw [run_rootMissing env fails fs h]
  exact ⟨rfl, rfl, rfl, rfl, rfl⟩

/-- Witness for C7 at a concrete absent root holding (hypothetically) one
folder. -/
theorem c7_witness :
    (⟨false, [.dirEntry ⟨"spawn", some ["x"], []⟩]⟩ : RootFS).rootExists = false
      ∧ ((run env0 noFail ⟨false, [.dirEntry ⟨"spawn", some ["x"], []⟩]⟩).fs
          = ⟨false, [.dirEntry ⟨"spawn", some ["x"], []⟩]⟩
        ∧ (run env0 noFail ⟨false, [.dirEntry ⟨"spawn", some ["x"], []⟩]⟩).outcome
          = .missingRoot
        ∧ (run env0 noFail ⟨false, [.dirEntry ⟨"spawn", some ["x"], []⟩]⟩).categoriesProcessed
          = 0
        ∧ (run env0 noFail ⟨false, [.dirEntry ⟨"spawn", some ["x"], []⟩]⟩).totalGenerated = 0
        ∧ (run env0 noFail ⟨false, [.dirEntry ⟨"spawn", some ["x"], []⟩]⟩).log
          = ["❌ Icons directory not found: " ++ ICONS_DIR,
             "   Please run reorganize-icons.cjs first to create the folder structure"]) :=
  ⟨rfl, c7_missing_root_reports_and_returns env0 noFail
    ⟨false, [.dirEntry ⟨"spawn", some ["x"], []⟩]⟩ rfl⟩

/-- C3 (amended): completeness — for a category folder whose manifest strips
to N non-blank names with pairwise-distinct destination paths, none of which
pre-exist, a failure-free run of the category processor creates exactly N new
files, each stored at its destination path with the category's rendered icon
as content, and returns the count N. -/
theorem c3_fresh_manifest_completeness (env : Env) (folder : FolderState)
    (lines : List String)
    (hm : folder.manifestLines = some lines)
    (hnd : ((manifestNames lines).map destName).Nodup)
    (habs : ∀ nm ∈ manifestNames lines, lookupFile folder.files (destName nm) = none) :
    (generateIconsForCategory env noFail folder).count = (manifestNames lines).length
      ∧ (generateIconsForCategory env noFail folder).folder.files.length
          = folder.files.length + (manifestNames lines).length
      ∧ ∀ nm ∈ manifestNames lines,
          lookupFile (generateIconsForCategory env noFail folder).folder.files (destName nm)
            = some (.icon (drawIcon env folder.name (resolveStyle folder.name).color
                (resolveStyle folder.name).shape (resolveStyle folder.name).label)) := by
  rw [generateIconsForCategory_some env noFail folder lines hm]
  have hfresh := processIcons_fresh env folder.name (resolveStyle folder.name).color
    (resolveStyle folder.name).shape (resolveStyle folder.name).label
    (manifestNames lines) ⟨folder.files, 0, (resolveStyle folder.name).warnings⟩ hnd habs
  refine ⟨by simpa using hfresh.1, by simpa using hfresh.2, ?_⟩
  intro nm hnm
  exact processIcons_creates env noFail folder.name (resolveStyle folder.name).color
    (resolveStyle folder.name).shape (resolveStyle folder.name).label
    (manifestNames lines) ⟨folder.files, 0, (resolveStyle folder.name).warnings⟩ nm hnm
    (habs nm hnm) rfl

/-- Witness for C3 at a concrete two-name manifest in the objectives
folder. -/
theorem c3_witness :
    ((⟨"objectives", some ["alpha", "beta.png"], []⟩ : FolderState).manifestLines
        = some ["alpha", "beta.png"]
      ∧ ((manifestNames ["alpha", "beta.png"]).map destName).Nodup
      ∧ (∀ nm ∈ manifestNames ["alpha", "beta.png"],
          lookupFile ([] : List (String × FileContent)) (destName nm) = none))
      ∧ ((generateIconsForCategory env0 noFail
            ⟨"objectives", some ["alpha", "beta.png"], []⟩).count
          = (manifestNames ["alpha", "beta.png"]).length
        ∧ (generateIconsForCategory env0 noFail
            ⟨"objectives", some ["alpha", "beta.png"], []⟩).folder.files.length
          = ([] : List (String × FileContent)).length
            + (manifestNames ["alpha", "beta.png"]).length
        ∧ ∀ nm ∈ manifestNames ["alpha", "beta.png"],
            lookupFile (generateIconsForCategory env0 noFail
                ⟨"objectives", some ["alpha", "beta.png"], []⟩).folder.files (destName nm)
              = some (.icon (drawIcon env0 "objectives" (resolveStyle "objectives").color
                  (resolveStyle "objectives").shape (resolveStyle "objectives").label))) :=
  ⟨⟨rfl, by decide, by decide⟩,
    c3_fresh_manifest_completeness env0 ⟨"objectives", some ["alpha", "beta.png"], []⟩
      ["alpha", "beta.png"] rfl (by decide) (by decide)⟩

/-- C3 counterexample: the manifest entries "foo" and "foo.png" are two
unique non-blank names, no destination file pre-exists, yet the processor
creates one file and returns 1, not 2 — both entries resolve to the single
destination foo.png. -/
theorem c3_counterexample :
    (manifestNames ["foo", "foo.png"]).length = 2
      ∧ (manifestNames ["foo", "foo.png"]).Nodup
      ∧ ((manifestNames ["foo", "foo.png"]).all fun nm =>
          (lookupFile ([] : List (String × FileContent)) (destName nm)).isNone) = true
      ∧ destName "foo" = destName "foo.png"
      ∧ (generateIconsForCategory env0 noFail
          ⟨"objectives", some ["foo", "foo.png"], []⟩).count = 1
      ∧ (generateIconsForCategory env0 noFail
          ⟨"objectives", some ["foo", "foo.png"], []⟩).folder.files.length = 1 :=
  ⟨by decide, by decide, by decide, by decide, by decide, by decide⟩

/-- C4 counterexample: the normalization of source line 139 removes every
occurrence of ".png", not only a trailing suffix — the entry "a.pngb" maps to
destination ab.png, not to a.pngb.png as preservation of the non-trailing
occurrence would demand. -/
theorem c4_counterexample :
    destName "a.pngb" = "ab.png" ∧ destName "a.pngb" ≠ "a.pngb.png" :=
  ⟨by decide, by decide⟩

/-- C4 (amended): extension normalization — every occurrence of ".png" in a
manifest entry is removed before computing the destination path (Python
str.replace removes all occurrences), so entries "foo.png" and "foo" (and in
general s ++ ".png" and s) resolve to the same destination, while a
non-trailing occurrence such as in "a.pngb" is removed rather than
preserved. -/
theorem c4_extension_normalization_removes_all :
    (∀ s : String, destName (s ++ ".png") = destName s)
      ∧ destName "foo" = "foo.png"
      ∧ destName "foo.png" = "foo.png"
      ∧ normalizeIconName "a.pngb" = "ab" :=
  ⟨destName_append_png, by decide, by decide, by decide⟩

/-- Witness for C4 at the concrete entry "bar". -/
theorem c4_witness : destName ("bar" ++ ".png") = destName "bar" :=
  c4_extension_normalization_removes_all.1 "bar"

/-- C5: per-icon failure containment — when rendering or saving the icon of
one manifest entry raises, the loop continues with the remaining names from
the same files and count, only extending the log with a message naming the
icon, and that message appears in the final log; the failure never escapes
the loop. -/
theorem c5_per_icon_failure_contained (env : Env) (fails : FailOracle)
    (categoryName : String) (color : PyColor) (shape : String) (label : String)
    (rawName : String) (rest : List String) (st : ProcState) (err : String)
    (hex : fileExists st.files (destName rawName) = false)
    (hf : fails (destName rawName) = some err) :
    processIcons env fails categoryName color shape label (rawName :: rest) st
        = processIcons env fails categoryName color shape label rest
            ⟨st.files, st.count,
              st.log ++ ["❌ Error generating " ++ normalizeIconName rawName ++ ": " ++ err]⟩
      ∧ ("❌ Error generating " ++ normalizeIconName rawName ++ ": " ++ err)
          ∈ (processIcons env fails categoryName color shape label (rawName :: rest) st).log := by
  have h1 : processIcons env fails categoryName color shape label (rawName :: rest) st
      = processIcons env fails categoryName color shape label rest
          ⟨st.files, st.count,
            st.log ++ ["❌ Error generating " ++ normalizeIconName rawName ++ ": " ++ err]⟩ := by
    rw [processIcons_cons, if_neg (by simp [hex]), hf]
  refine ⟨h1, ?_⟩
  rw [h1]
  obtain ⟨t, ht⟩ := processIcons_log_extends env fails categoryName color shape label rest
    ⟨st.files, st.count,
      st.log ++ ["❌ Error generating " ++ normalizeIconName rawName ++ ": " ++ err]⟩
  rw [ht]
  simp

/-- Witness for C5: the first of two names fails with "disk full"; the loop
records the error and still processes the second name. -/
theorem c5_witness :
    (fileExists ([] : List (String × FileContent)) (destName "x") = false
      ∧ (fun p => if p = "x.png" then some "disk full" else none) (destName "x")
        = some "disk full")
      ∧ (processIcons env0 (fun p => if p = "x.png" then some "disk full" else none)
            "spawn" (.rgb 255 255 255) "arrow_down" "DROP" ["x", "y"] ⟨[], 0, []⟩
          = processIcons env0 (fun p => if p = "x.png" then some "disk full" else none)
            "spawn" (.rgb 255 255 255) "arrow_down" "DROP" ["y"]
            ⟨[], 0, ([] : List String)
              ++ ["❌ Error generating " ++ normalizeIconName "x" ++ ": " ++ "disk full"]⟩
        ∧ ("❌ Error generating " ++ normalizeIconName "x" ++ ": " ++ "disk full")
          ∈ (processIcons env0 (fun p => if p = "x.png" then some "disk full" else none)
              "spawn" (.rgb 255 255 255) "arrow_down" "DROP" ["x", "y"] ⟨[], 0, []⟩).log) :=
  ⟨⟨by decide, by decide⟩,
    c5_per_icon_failure_contained env0 (fun p => if p = "x.png" then some "disk full" else none)
      "spawn" (.rgb 255 255 255) "arrow_down" "DROP" "x" ["y"] ⟨[], 0, []⟩ "disk full"
      (by decide) (by decide)⟩

/-- C6: skip on missing manifest — a category folder without icon-names.txt
makes the processor log the warning and return 0 with the folder untouched,
and the walker still visits every directory child of the root regardless. -/
theorem c6_missing_manifest_is_recoverable (env : Env) (fails : FailOracle)
    (folder : FolderState) (fs : RootFS)
    (hm : folder.manifestLines = none) (hr : fs.rootExists = true) :
    generateIconsForCategory env fails folder
        = ⟨folder, 0, (resolveStyle folder.name).warnings
            ++ ["⚠️  No icon-names.txt found in " ++ categoryPath folder.name]⟩
      ∧ (run env fails fs).categoriesProcessed = dirCount fs.entries := by
  refine ⟨generateIconsForCategory_noManifest env fails folder hm, ?_⟩
  rw [run_rootExists env fails fs hr]
  exact processEntries_dirCount env fails fs.entries

/-- Witness for C6: a manifest-less spawn folder next to an objectives folder
with a manifest; both siblings are visited. -/
theorem c6_witness :
    ((⟨"spawn", none, []⟩ : FolderState).manifestLines = none
      ∧ (⟨true, [.dirEntry ⟨"spawn", none, []⟩,
          .dirEntry ⟨"objectives", some ["a"], []⟩]⟩ : RootFS).rootExists = true)
      ∧ (generateIconsForCategory env0 noFail ⟨"spawn", none, []⟩
          = ⟨⟨"spawn", none, []⟩, 0, (resolveStyle "spawn").warnings
              ++ ["⚠️  No icon-names.txt found in " ++ categoryPath "spawn"]⟩
        ∧ (run env0 noFail ⟨true, [.dirEntry ⟨"spawn", none, []⟩,
            .dirEntry ⟨"objectives", some ["a"], []⟩]⟩).categoriesProcessed
          = dirCount [.dirEntry ⟨"spawn", none, []⟩,
              .dirEntry ⟨"objectives", some ["a"], []⟩]) :=
  ⟨⟨rfl, rfl⟩,
    c6_missing_manifest_is_recoverable env0 noFail ⟨"spawn", none, []⟩
      ⟨true, [.dirEntry ⟨"spawn", none, []⟩, .dirEntry ⟨"objectives", some ["a"], []⟩]⟩
      rfl rfl⟩

/-- C8: style fidelity and fallback — an icon generated for the category
folder "objectives" is stored rendered with the star shape and the color
#ffeb3b (as the RGB triple (255, 235, 59)), while an icon generated for any
folder name outside the style table is stored rendered with the circle shape
and the fallback color "#9e9e9e", with the unknown-category warning
logged. -/
theorem c8_style_fidelity_and_fallback (env : Env) (fails : FailOracle)
    (lines : List String) (files : List (String × FileContent))
    (catName nm : String)
    (hnm : nm ∈ manifestNames lines)
    (habs : lookupFile files (destName nm) = none)
    (hok : fails (destName nm) = none)
    (hunknown : CATEGORY_STYLES.lookup catName = none) :
    lookupFile (generateIconsForCategory env fails
          ⟨"objectives", some lines, files⟩).folder.files (destName nm)
        = some (.icon (drawIcon env "objectives" (.rgb 255 235 59) "star" "OBJ"))
      ∧ lookupFile (generateIconsForCategory env fails
          ⟨catName, some lines, files⟩).folder.files (destName nm)
        = some (.icon (drawIcon env catName (.hexStr "#9e9e9e") "circle" "???"))
      ∧ ("⚠️  Unknown category: " ++ catName ++ ", using default style")
          ∈ (generateIconsForCategory env fails ⟨catName, some lines, files⟩).log := by
  have hobj : resolveStyle "objectives" = ⟨.rgb 255 235 59, "star", "OBJ", []⟩ := by decide
  have hunk : resolveStyle catName = ⟨.hexStr "#9e9e9e", "circle", "???",
      ["⚠️  Unknown category: " ++ catName ++ ", using default style"]⟩ := by
    simp [resolveStyle, hunknown]
  refine ⟨?_, ?_, ?_⟩
  · rw [generateIconsForCategory_some env fails ⟨"objectives", some lines, files⟩ lines rfl]
    have hcr := processIcons_creates env fails "objectives"
      (resolveStyle "objectives").color (resolveStyle "objectives").shape
      (resolveStyle "objectives").label (manifestNames lines)
      ⟨files, 0, (resolveStyle "objectives").warnings⟩ nm hnm habs hok
    rw [hobj] at hcr
    simpa [hobj] using hcr
  · rw [generateIconsForCategory_some env fails ⟨catName, some lines, files⟩ lines rfl]
    have hcr := processIcons_creates env fails catName
      (resolveStyle catName).color (resolveStyle catName).shape
      (resolveStyle catName).label (manifestNames lines)
      ⟨files, 0, (resolveStyle catName).warnings⟩ nm hnm habs hok
    rw [hunk] at hcr
    simpa [hunk] using hcr
  · rw [generateIconsForCategory_some env fails ⟨catName, some lines, files⟩ lines rfl]
    obtain ⟨t, ht⟩ := processIcons_log_extends env fails catName
      (resolveStyle catName).color (resolveStyle catName).shape
      (resolveStyle catName).label (manifestNames lines)
      ⟨files, 0, (resolveStyle catName).warnings⟩
    show ("⚠️  Unknown category: " ++ catName ++ ", using default style")
      ∈ (processIcons env fails catName (resolveStyle catName).color
        (resolveStyle catName).shape (resolveStyle catName).label (manifestNames lines)
        ⟨files, 0, (resolveStyle catName).warnings⟩).log
    rw [ht, hunk]
    simp

/-- Witness for C8: a one-name manifest processed once inside "objectives"
and once inside the unrecognized folder "unknown-cat". -/
theorem c8_witness :
    ("x" ∈ manifestNames ["x"]
      ∧ lookupFile ([] : List (String × FileContent)) (destName "x") = none
      ∧ noFail (destName "x") = none
      ∧ CATEGORY_STYLES.lookup "unknown-cat" = none)
      ∧ (lookupFile (generateIconsForCategory env0 noFail
            ⟨"objectives", some ["x"], []⟩).folder.files (destName "x")
          = some (.icon (drawIcon env0 "objectives" (.rgb 255 235 59) "star" "OBJ"))
        ∧ lookupFile (generateIconsForCategory env0 noFail
            ⟨"unknown-cat", some ["x"], []⟩).folder.files (destName "x")
          = some (.icon (drawIcon env0 "unknown-cat" (.hexStr "#9e9e9e") "circle" "???"))
        ∧ ("⚠️  Unknown category: " ++ "unknown-cat" ++ ", using default style")
          ∈ (generateIconsForCategory env0 noFail ⟨"unknown-cat", some ["x"], []⟩).log) :=
  ⟨⟨by decide, by decide, rfl, by decide⟩,
    c8_style_fidelity_and_fallback env0 noFail ["x"] [] "unknown-cat" "x"
      (by decide) (by decide) rfl (by decide)⟩

/-- C9: the star branch of draw_icon is degenerate — the ten computed
vertices (the unused angle notwithstanding) all satisfy y = x, so they lie on
one diagonal line through the canvas midpoint: only four distinct collinear
points, with no three non-collinear vertices and no 5-fold symmetry. -/
theorem c9_star_points_collinear :
    starPoints =
      [(54.4, 54.4), (40, 40), (54.4, 54.4), (40, 40), (54.4, 54.4),
       (24, 24), (9.6, 9.6), (24, 24), (9.6, 9.6), (24, 24)]
      ∧ (starPoints.map fun pt => pt.2 - pt.1) = List.replicate 10 0 := by
  constructor
  · norm_num [starPoints, List.range_succ]
  · norm_num [starPoints, List.range_succ, List.replicate]

/-- C10: category-argument noninterference of the renderer — the drawing
commands produced by draw_icon depend only on the color, shape and text
arguments (and the ambient font environment): two calls with equal such
arguments but different category values produce identical images, because the
category parameter is never read in the function body. -/
theorem c10_category_noninterference (env : Env) (cat₁ cat₂ : String)
    (color : PyColor) (shape : String) (text : String) :
    drawIcon env cat₁ color shape text = drawIcon env cat₂ color shape text := rfl

/-- Witness for C10 at two concrete category names sharing one style. -/
theorem c10_witness :
    drawIcon env0 "objectives" (.rgb 255 235 59) "star" "OBJ"
      = drawIcon env0 "somewhere-else" (.rgb 255 235 59) "star" "OBJ" :=
  c10_category_noninterference env0 "objectives" "somewhere-else"
    (.rgb 255 235 59) "star" "OBJ"

end LocationIcons
